import Mathlib

/-!
Verification development for the WinHTML-Editor desktop coordination shell
(the Go program in `src/unnamed/part_001`).  The shell's pure logic —
file-lock registry, the two ephemeral stores, the HTTP handlers for
dialogs, handover, open/save, render-view and export, the secondary-instance
handover branch of `main`, and the regex-based image inliner — is embedded
shallowly below.  OS effects (os.Open/Create/ReadFile/MkdirAll, filepath.Abs,
the native dialogs, the chromedp render driver) are modelled as explicit
outcome parameters/oracles passed to each embedded function, and Go standard
library path helpers that the program only pipes data through
(filepath.Dir/Base/Join/Clean) are likewise oracle parameters; everything
the program itself computes is translated directly.
-/

namespace WinHtmlEditor

/-- Byte strings (Go `[]byte`). -/
abbrev Bytes := List UInt8

/-- Abstract open file handle (`*os.File`). -/
abbrev Handle := Nat

/-- UTF-8 encoding of a single character (how Go lays out `string` bytes). -/
def utf8EncodeCharBytes (c : Char) : Bytes :=
  let n := c.toNat
  if n < 0x80 then [UInt8.ofNat n]
  else if n < 0x800 then
    [UInt8.ofNat (0xC0 ||| (n >>> 6)), UInt8.ofNat (0x80 ||| (n &&& 0x3F))]
  else if n < 0x10000 then
    [UInt8.ofNat (0xE0 ||| (n >>> 12)), UInt8.ofNat (0x80 ||| ((n >>> 6) &&& 0x3F)),
     UInt8.ofNat (0x80 ||| (n &&& 0x3F))]
  else
    [UInt8.ofNat (0xF0 ||| (n >>> 18)), UInt8.ofNat (0x80 ||| ((n >>> 12) &&& 0x3F)),
     UInt8.ofNat (0x80 ||| ((n >>> 6) &&& 0x3F)), UInt8.ofNat (0x80 ||| (n &&& 0x3F))]

/-- Bytes of a Go string literal. -/
def utf8Bytes (s : String) : Bytes :=
  s.data.flatMap utf8EncodeCharBytes

/-- Go `string(bytes)` conversion as used on byte slices that are then fed to
regex processing; modelled byte-per-char (adequate for the ASCII inputs the
claims exercise). -/
def bytesToStr (bs : Bytes) : String :=
  String.mk (bs.map fun b => Char.ofNat b.toNat)

/-- The lowercase hex alphabet used by Go `encoding/hex`. -/
def hexDigits : List Char := "0123456789abcdef".data

/-- Two lowercase hex characters for one byte (`hex.EncodeToString` per byte). -/
def hexByte (b : UInt8) : List Char :=
  [hexDigits.getD (b.toNat / 16) '0', hexDigits.getD (b.toNat % 16) '0']

/-- `hex.EncodeToString`. -/
def hexEncodeBytes (bs : Bytes) : String :=
  String.mk (bs.flatMap hexByte)

/-- `generateID` from the source: 8 random bytes, hex encoded.  The
`crypto/rand` output is the explicit `randomBytes` parameter. -/
def generateID (randomBytes : Bytes) : String :=
  hexEncodeBytes randomBytes

/-- Decision of membership in the lowercase hex alphabet. -/
def isLowerHex (c : Char) : Bool :=
  hexDigits.contains c

/-- Standard base64 alphabet (`base64.StdEncoding`). -/
def b64Alphabet : List Char :=
  "ABCDEFGHIJKLMNOPQRSTUVWXYZabcdefghijklmnopqrstuvwxyz0123456789+/".data

/-- Character for a 6-bit group. -/
def b64Char (n : Nat) : Char := b64Alphabet.getD n 'A'

/-- `base64.StdEncoding.EncodeToString` (padded). -/
def base64Encode : Bytes → String
  | [] => ""
  | [a] =>
    String.mk [b64Char (a.toNat >>> 2), b64Char ((a.toNat &&& 3) <<< 4), '=', '=']
  | [a, b] =>
    String.mk [b64Char (a.toNat >>> 2), b64Char (((a.toNat &&& 3) <<< 4) ||| (b.toNat >>> 4)),
               b64Char ((b.toNat &&& 15) <<< 2), '=']
  | a :: b :: c :: rest =>
    String.mk [b64Char (a.toNat >>> 2), b64Char (((a.toNat &&& 3) <<< 4) ||| (b.toNat >>> 4)),
               b64Char (((b.toNat &&& 15) <<< 2) ||| (c.toNat >>> 6)), b64Char (c.toNat &&& 63)]
      ++ base64Encode rest

/-- Value of a base64 alphabet character. -/
def b64Val (c : Char) : Option Nat :=
  if 'A' ≤ c ∧ c ≤ 'Z' then some (c.toNat - 65)
  else if 'a' ≤ c ∧ c ≤ 'z' then some (c.toNat - 97 + 26)
  else if '0' ≤ c ∧ c ≤ '9' then some (c.toNat - 48 + 52)
  else if c = '+' then some 62
  else if c = '/' then some 63
  else none

/-- Decode 4-character base64 chunks with trailing padding
(`base64.StdEncoding.DecodeString` core loop). -/
def base64DecodeChunks : List Char → Option Bytes
  | [] => some []
  | a :: b :: c :: d :: rest =>
    match b64Val a, b64Val b with
    | some va, some vb =>
      if c = '=' then
        if d = '=' ∧ rest = [] then
          some [UInt8.ofNat ((va <<< 2) ||| (vb >>> 4))]
        else none
      else
        match b64Val c with
        | some vc =>
          if d = '=' then
            if rest = [] then
              some [UInt8.ofNat ((va <<< 2) ||| (vb >>> 4)),
                    UInt8.ofNat (((vb &&& 15) <<< 4) ||| (vc >>> 2))]
            else none
          else
            match b64Val d with
            | some vd =>
              (base64DecodeChunks rest).map fun tl =>
                UInt8.ofNat ((va <<< 2) ||| (vb >>> 4)) ::
                UInt8.ofNat (((vb &&& 15) <<< 4) ||| (vc >>> 2)) ::
                UInt8.ofNat (((vc &&& 3) <<< 6) ||| vd) :: tl
            | none => none
        | none => none
    | _, _ => none
  | _ => none

/-- `base64.StdEncoding.DecodeString`: newlines are skipped, anything else
malformed is an error. -/
def base64Decode (s : String) : Option Bytes :=
  base64DecodeChunks (s.data.filter fun c => c ≠ '\r' ∧ c ≠ '\n')

/-- JSON escaping of one character as Go `encoding/json` does by default
(including its HTML escaping of `<`, `>`, `&`). -/
def goJsonEscapeChar (c : Char) : List Char :=
  if c = '"' then ['\\', '"']
  else if c = '\\' then ['\\', '\\']
  else if c = '<' then "\\u003c".data
  else if c = '>' then "\\u003e".data
  else if c = '&' then "\\u0026".data
  else if c = '\n' then ['\\', 'n']
  else if c = '\r' then ['\\', 'r']
  else if c = '\t' then ['\\', 't']
  else if c.toNat < 0x20 then
    "\\u00".data ++ [hexDigits.getD (c.toNat / 16) '0', hexDigits.getD (c.toNat % 16) '0']
  else [c]

/-- Go JSON string literal. -/
def goJsonString (s : String) : String :=
  "\"" ++ String.mk (s.data.flatMap goJsonEscapeChar) ++ "\""

/-- Body produced by `json.NewEncoder(w).Encode(DialogResponse{Path: p})`
(note the trailing newline the encoder emits). -/
def jsonDialogResponse (p : String) : String :=
  "\x7b\"path\":" ++ goJsonString p ++ "\x7d\n"

/-- Body produced by `json.NewEncoder(w).Encode(map[string]string{"error": msg})`. -/
def jsonErrorObj (msg : String) : String :=
  "\x7b\"error\":" ++ goJsonString msg ++ "\x7d\n"

/-- Observable part of an HTTP response: status code and raw body bytes. -/
structure HttpResponse where
  status : Nat
  body : Bytes
  deriving DecidableEq, Repr

/-- `http.Error(w, msg, code)`: plain text body with a trailing newline. -/
def httpError (code : Nat) (msg : String) : HttpResponse :=
  { status := code, body := utf8Bytes (msg ++ "\n") }

/-- Decidable equality of fallible results, for evaluating the embedded
handlers on concrete inputs. -/
instance instDecidableEqExcept {ε α : Type} [DecidableEq ε] [DecidableEq α] :
    DecidableEq (Except ε α) := fun x y =>
  match x, y with
  | .error a, .error b =>
    if h : a = b then isTrue (by rw [h]) else isFalse fun hc => h (Except.error.inj hc)
  | .error _, .ok _ => isFalse fun hc => Except.noConfusion hc
  | .ok _, .error _ => isFalse fun hc => Except.noConfusion hc
  | .ok a, .ok b =>
    if h : a = b then isTrue (by rw [h]) else isFalse fun hc => h (Except.ok.inj hc)

/-- Auxiliary scan for `goExt`: walk the reversed character list collecting the
would-be suffix until the final dot of the final path element is hit. -/
def goExtAux : List Char → List Char → String
  | [], _ => ""
  | c :: rest, acc =>
    if c = '/' ∨ c = '\\' then ""
    else if c = '.' then String.mk ('.' :: acc)
    else goExtAux rest (c :: acc)

/-- `filepath.Ext`: suffix beginning at the final dot in the final element;
empty when there is no dot. -/
def goExt (s : String) : String :=
  goExtAux s.data.reverse []

/-- `strings.TrimSuffix`. -/
def goTrimSuffix (s suf : String) : String :=
  if suf.data.isSuffixOf s.data then String.mk (s.data.take (s.data.length - suf.data.length))
  else s

/-- `strings.ToLower`, restricted to the simple per-character fold (exact for
the ASCII names the program lowercases). -/
def goToLower (s : String) : String :=
  String.mk (s.data.map Char.toLower)

/-- `strings.EqualFold`, restricted to the simple per-character fold (exact for
the ASCII path names the program compares). -/
def eqFold (a b : String) : Bool :=
  goToLower a == goToLower b

-- --- File Locking Logic (getLockKey / lockFile / unlockFile / unlockAll) ---

/-- The path→handle map guarded by `lockMu`. -/
abbrev Registry := List (String × Handle)

/-- `getLockKey`: `filepath.Clean`, lowercased on Windows.  `goClean` is the
`filepath.Clean` library function, passed as an oracle. -/
def getLockKey (windows : Bool) (goClean : String → String) (path : String) : String :=
  if windows then goToLower (goClean path) else goClean path

/-- `lockFile`: no-op when the canonical key is already held; otherwise opens
the file (outcome given by the `openRes` oracle) and registers the handle,
silently swallowing open errors. -/
def lockFile (windows : Bool) (goClean : String → String)
    (openRes : String → Option Handle) (st : Registry) (path : String) : Registry :=
  let key := getLockKey windows goClean path
  if (st.lookup key).isSome then st
  else
    match openRes path with
    | some f => (key, f) :: st
    | none => st

/-- `unlockFile`: closes and removes the handle for the canonical key if
present (removal from a Go map; absent key is a no-op). -/
def unlockFile (windows : Bool) (goClean : String → String)
    (st : Registry) (path : String) : Registry :=
  st.filter fun e => e.1 ≠ getLockKey windows goClean path

/-- `unlockAll`: closes every handle and empties the map. -/
def unlockAll (_st : Registry) : Registry := []

/-- Number of handles registered under a canonical key. -/
def handleCount (st : Registry) (key : String) : Nat :=
  (st.filter fun e => e.1 = key).length

/-- One registry operation, carrying the open outcome the OS would give at
that moment (for `lock`). -/
inductive LockOp where
  | lock (path : String) (openRes : String → Option Handle)
  | unlock (path : String)
  | unlockAllOp

/-- Apply one operation to the registry. -/
def applyLockOp (windows : Bool) (goClean : String → String)
    (st : Registry) : LockOp → Registry
  | .lock p o => lockFile windows goClean o st p
  | .unlock p => unlockFile windows goClean st p
  | .unlockAllOp => unlockAll st

/-- Registry reached from the initial empty map by a sequence of operations. -/
def runLockOps (windows : Bool) (goClean : String → String)
    (ops : List LockOp) : Registry :=
  ops.foldl (applyLockOp windows goClean) []

-- --- Ephemeral stores ---

/-- `FileData`: the handover payload. -/
structure FileData where
  fileName : String
  data : String
  deriving DecidableEq, Repr

/-- `fileStore`: map ID → FileData (Go map; modelled as an association list
where insertion prepends and lookup takes the most recent binding). -/
abbrev FileStore := List (String × FileData)

/-- `renderStore`: map token → HTML. -/
abbrev RenderStore := List (String × String)

/-- Go map assignment `renderStore[token] = html`. -/
def rsPut (st : RenderStore) (token html : String) : RenderStore :=
  (token, html) :: st

/-- Go `delete(renderStore, token)`. -/
def rsDelete (st : RenderStore) (token : String) : RenderStore :=
  st.filter fun e => e.1 ≠ token

-- --- inlineLocalImages: the regex-based local image inliner ---

/-- RE2 `\s`: tab, newline, form feed, carriage return, space. -/
def isGoSpace (c : Char) : Bool :=
  c == '\t' || c == '\n' || c == '\x0c' || c == '\r' || c == ' '

/-- Case-insensitive comparison of one character against a lowercase letter
(the `(?i)` flag of the two regexes). -/
def lowerEq (c target : Char) : Bool :=
  c.toLower == target

/-- The single-quote character (spelled via its code point). -/
def singleQuote : Char := Char.ofNat 39

/-- Match of `(?i)<img\s+[^>]*>` anchored at the head of the list: `<img`,
then at least one whitespace character, then everything up to the first `>`.
Returns the matched tag and the remainder. -/
def matchImgAt : List Char → Option (List Char × List Char)
  | c0 :: c1 :: c2 :: c3 :: d :: rest2 =>
    if c0 = '<' ∧ lowerEq c1 'i' ∧ lowerEq c2 'm' ∧ lowerEq c3 'g' ∧ isGoSpace d then
      match (d :: rest2).dropWhile (fun x => x ≠ '>') with
      | g :: rest3 =>
        if g = '>' then
          some (c0 :: c1 :: c2 :: c3 ::
                  ((d :: rest2).takeWhile (fun x => x ≠ '>') ++ ['>']), rest3)
        else none
      | [] => none
    else none
  | _ => none

/-- A piece of the scanned document: literal text or one `<img ...>` tag
matched by the tag regex. -/
inductive Seg where
  | text (s : List Char)
  | img (s : List Char)
  deriving DecidableEq, Repr

/-- Characters of a segment. -/
def segChars : Seg → List Char
  | .text s => s
  | .img s => s

/-- Leftmost-match scan of `regexp.ReplaceAllStringFunc`, fuelled by the input
length (the fuel never runs out when initialised to the length). -/
def scanImgFuel : Nat → List Char → List Seg
  | _, [] => []
  | 0, l => [.text l]
  | fuel + 1, x :: xs =>
    match matchImgAt (x :: xs) with
    | some (tag, rest) => .img tag :: scanImgFuel fuel rest
    | none => .text [x] :: scanImgFuel fuel xs

/-- Split a document into text pieces and `<img>` tag matches. -/
def scanImg (l : List Char) : List Seg :=
  scanImgFuel l.length l

/-- Match a quoted attribute value `"([^"]*)"` or `'([^']*)'` at the head:
returns (is-double-quoted, content, remainder). -/
def matchQuoted (l : List Char) : Option (Bool × List Char × List Char) :=
  match l with
  | q :: rest =>
    if q = '"' then
      match rest.dropWhile (fun x => x ≠ '"') with
      | '"' :: rest2 => some (true, rest.takeWhile (fun x => x ≠ '"'), rest2)
      | _ => none
    else if q = singleQuote then
      match rest.dropWhile (fun x => x ≠ singleQuote) with
      | q2 :: rest2 =>
        if q2 = singleQuote then some (false, rest.takeWhile (fun x => x ≠ singleQuote), rest2)
        else none
      | _ => none
    else none
  | [] => none

/-- Match `src\s*=\s*("([^"]*)"|'([^']*)')` (case-insensitive `src`) at the
head: returns (consumed characters, is-double-quoted, content). -/
def matchSrcTail (l : List Char) : Option (List Char × Bool × List Char) :=
  match l with
  | s1 :: s2 :: s3 :: rest =>
    if lowerEq s1 's' && lowerEq s2 'r' && lowerEq s3 'c' then
      let sp1 := rest.takeWhile isGoSpace
      match rest.dropWhile isGoSpace with
      | '=' :: r2 =>
        let sp2 := r2.takeWhile isGoSpace
        match matchQuoted (r2.dropWhile isGoSpace) with
        | some (isD, content, _) =>
          let q := if isD then '"' else singleQuote
          some (s1 :: s2 :: s3 :: (sp1 ++ '=' :: (sp2 ++ q :: (content ++ [q]))), isD, content)
        | none => none
      | _ => none
    else none
  | _ => none

/-- Result of `srcRe.FindStringSubmatch`: `g1` is group 1 (`\s` or empty for
`^`), `m3`/`m4` are groups 3/4 (empty when their alternative did not match),
`whole` is `match[0]`. -/
structure SrcMatch where
  g1 : List Char
  m3 : List Char
  m4 : List Char
  whole : List Char
  deriving DecidableEq, Repr

/-- Leftmost match of `(?i)(\s|^)src\s*=\s*("([^"]*)"|'([^']*)')` within a
tag.  `atStart` records whether the current position is offset 0 (where the
`^` alternative of group 1 can match). -/
def findSrcIn : Bool → List Char → Option SrcMatch
  | _, [] => none
  | atStart, c :: rest =>
    if isGoSpace c then
      match matchSrcTail rest with
      | some (consumed, isD, content) =>
        some { g1 := [c]
               m3 := if isD then content else []
               m4 := if isD then [] else content
               whole := c :: consumed }
      | none => findSrcIn false rest
    else if atStart then
      match matchSrcTail (c :: rest) with
      | some (consumed, isD, content) =>
        some { g1 := []
               m3 := if isD then content else []
               m4 := if isD then [] else content
               whole := consumed }
      | none => findSrcIn false rest
    else findSrcIn false rest

/-- Hex digit value for percent decoding. -/
def hexVal (c : Char) : Option Nat :=
  if '0' ≤ c ∧ c ≤ '9' then some (c.toNat - 48)
  else if 'a' ≤ c ∧ c ≤ 'f' then some (c.toNat - 97 + 10)
  else if 'A' ≤ c ∧ c ≤ 'F' then some (c.toNat - 65 + 10)
  else none

/-- Core of `url.QueryUnescape`: `%XX` decodes, `+` becomes space, a bad
escape is an error. -/
def queryUnescapeAux : List Char → Option (List Char)
  | [] => some []
  | '%' :: a :: b :: rest =>
    match hexVal a, hexVal b with
    | some x, some y => (queryUnescapeAux rest).map (Char.ofNat (16 * x + y) :: ·)
    | _, _ => none
  | '%' :: _ => none
  | '+' :: rest => (queryUnescapeAux rest).map (' ' :: ·)
  | c :: rest => (queryUnescapeAux rest).map (c :: ·)

/-- `url.QueryUnescape`. -/
def goQueryUnescape (s : String) : Option String :=
  (queryUnescapeAux s.data).map String.mk

/-- `strings.Replace(s, pat, rep, 1)` scan for a nonempty pattern. -/
def replaceFirstAux (pat rep : List Char) : List Char → List Char
  | [] => []
  | c :: rest =>
    if pat.isPrefixOf (c :: rest) then rep ++ (c :: rest).drop pat.length
    else c :: replaceFirstAux pat rep rest

/-- `strings.Replace(s, pat, rep, 1)`. -/
def goReplaceFirst (s pat rep : List Char) : List Char :=
  if pat.isEmpty then rep ++ s else replaceFirstAux pat rep s

/-- Environment of the inliner: GOOS, the `filepath` helpers it pipes paths
through, and the outcomes of `os.ReadFile` / `http.DetectContentType`. -/
structure InlineEnv where
  windows : Bool
  dir : String → String
  join : String → String → String
  readFile : String → Option Bytes
  detectMime : Bytes → String

/-- Path resolution for one `src` value: strip `?`/`#` suffix, query-unescape
(keeping the original on error), `filepath.FromSlash`, then join onto the
document's directory. -/
def srcResolvedPath (env : InlineEnv) (baseDir : String) (srcContent : List Char) : String :=
  let cleanPath0 := srcContent.takeWhile fun c => c ≠ '?' ∧ c ≠ '#'
  let cleanPath1 :=
    match goQueryUnescape (String.mk cleanPath0) with
    | some u => u
    | none => String.mk cleanPath0
  let cleanPath2 :=
    if env.windows then String.mk (cleanPath1.data.map fun c => if c = '/' then '\\' else c)
    else cleanPath1
  env.join baseDir cleanPath2

/-- The `src` value the handler works on: `match[3]`, falling back to
`match[4]` when group 3 is empty. -/
def tagSrcSel (m : SrcMatch) : List Char :=
  if m.m3 = [] then m.m4 else m.m3

/-- The source prefixes that are left untouched. -/
def excludedSrc (src : List Char) : Bool :=
  "data:".data.isPrefixOf src || "http:".data.isPrefixOf src ||
    "https:".data.isPrefixOf src || "//".data.isPrefixOf src

/-- Per-tag body of the `ReplaceAllStringFunc` callback. -/
def transformTag (env : InlineEnv) (baseDir : String) (imgTag : List Char) : List Char :=
  match findSrcIn true imgTag with
  | none => imgTag
  | some m =>
    let srcContent := tagSrcSel m
    let quoteChar := if m.m3 = [] then singleQuote else '"'
    if excludedSrc srcContent then imgTag
    else
      let fullPath := srcResolvedPath env baseDir srcContent
      match env.readFile fullPath with
      | none => imgTag
      | some dataBytes =>
        let mimeType := env.detectMime dataBytes
        let base64Data := base64Encode dataBytes
        let newDataURI := "data:" ++ mimeType ++ ";base64," ++ base64Data
        let newSrcAttr := m.g1 ++ ("src=".data ++ quoteChar :: (newDataURI.data ++ [quoteChar]))
        goReplaceFirst imgTag m.whole newSrcAttr

/-- `inlineLocalImages`: split the document at `<img>` tag matches and rewrite
each tag via `transformTag`; all other text is emitted as-is.  The function is
total (the Go original additionally guards itself with recover). -/
def inlineLocalImages (env : InlineEnv) (htmlContent htmlFilePath : String) : String :=
  let baseDir := env.dir htmlFilePath
  String.mk ((scanImg htmlContent.data).flatMap fun s =>
    match s with
    | .text t => t
    | .img tag => transformTag env baseDir tag)

/-- A tag the claim requires to stay unchanged: no `src` attribute, an
excluded scheme, or an unreadable referenced file. -/
def imgTagBad (env : InlineEnv) (baseDir : String) (imgTag : List Char) : Bool :=
  match findSrcIn true imgTag with
  | none => true
  | some m =>
    excludedSrc (tagSrcSel m) ||
      (env.readFile (srcResolvedPath env baseDir (tagSrcSel m))).isNone

-- --- Native dialogs and their handlers ---

/-- `getNativeOpenDialog`: the `GetOpenFileNameW` call either returns a path
or reports 0 (cancel), which the function surfaces as the error
`"cancelled"`.  `cancelled`/`chosen` model the native call's outcome. -/
def getNativeOpenDialog (cancelled : Bool) (chosen : String) : Except String String :=
  if cancelled then .error "cancelled" else .ok chosen

/-- Filter string and default extension selected by `getNativeSaveDialog`
from the `filter` query parameter. -/
def saveDialogFilter (filterType : String) : String × String :=
  if filterType = "pdf" then ("PDF Files (*.pdf)\x00*.pdf\x00\x00", "pdf")
  else if filterType = "md" then ("Markdown Files (*.md)\x00*.md\x00\x00", "md")
  else ("HTML Files (*.html)\x00*.html\x00\x00", "html")

/-- `getNativeSaveDialog`: cancel surfaces as the error `"cancelled"`. -/
def getNativeSaveDialog (_filterType : String) (cancelled : Bool) (chosen : String) :
    Except String String :=
  if cancelled then .error "cancelled" else .ok chosen

/-- Handler for `GET /api/dialog/open`: an error from the dialog yields a 200
response with an empty path, never an error status. -/
def dialogOpenHandler (dlg : Except String String) : HttpResponse :=
  match dlg with
  | .error _ => { status := 200, body := utf8Bytes (jsonDialogResponse "") }
  | .ok path => { status := 200, body := utf8Bytes (jsonDialogResponse path) }

/-- Handler for `GET /api/dialog/save`. -/
def dialogSaveHandler (_filterType : String) (dlg : Except String String) : HttpResponse :=
  match dlg with
  | .error _ => { status := 200, body := utf8Bytes (jsonDialogResponse "") }
  | .ok path => { status := 200, body := utf8Bytes (jsonDialogResponse path) }

-- --- Render-view and export handlers ---

/-- Handler for `GET /api/render-view?token=`: serves the stored HTML, 404
when the token is unknown. -/
def renderViewHandler (st : RenderStore) (token : String) : HttpResponse :=
  match st.lookup token with
  | none => { status := 404, body := utf8Bytes "404 page not found\n" }
  | some html => { status := 200, body := utf8Bytes html }

/-- `ScreenshotRequest` body. -/
structure ScreenshotRequest where
  html : String
  width : Int
  deriving DecidableEq, Repr

/-- `PdfExportRequest` body (`scale` is a float64 scale factor; modelled as a
rational). -/
structure PdfExportRequest where
  html : String
  path : String
  scale : Rat
  deriving DecidableEq, Repr

/-- Scale actually passed to `PrintToPDF` (default 1.0). -/
def pdfEffectiveScale (req : PdfExportRequest) : Rat :=
  if req.scale ≤ 0 then 1 else req.scale

/-- Handler for `POST /api/export/screenshot`.  `body` is the decoded request
(`none` = JSON decode error), `token` the `generateID` output, `render` the
outcome of the chromedp run (errors include timeouts and render failures).
The deferred `delete(renderStore, token)` runs on every path that stored the
token. -/
def screenshotHandler (st : RenderStore) (body : Option ScreenshotRequest)
    (token : String) (render : Except String Bytes) : RenderStore × HttpResponse :=
  match body with
  | none => (st, httpError 400 "Invalid request body")
  | some req =>
    if req.html = "" then (st, httpError 400 "HTML content is empty")
    else
      let st1 := rsPut st token req.html
      match render with
      | .error e => (rsDelete st1 token, httpError 500 ("Chromedp Error: " ++ e))
      | .ok buf => (rsDelete st1 token, { status := 200, body := buf })

/-- Handler for `POST /api/export/pdf`.  `writeOk` is the outcome of the
`os.WriteFile(req.Path, buf, 0644)` call. -/
def pdfExportHandler (st : RenderStore) (body : Option PdfExportRequest)
    (token : String) (render : Except String Bytes) (writeOk : Bool) :
    RenderStore × HttpResponse :=
  match body with
  | none => (st, httpError 400 "Invalid request body")
  | some req =>
    if req.html = "" ∨ req.path = "" then (st, httpError 400 "HTML content or Path is empty")
    else
      let st1 := rsPut st token req.html
      match render with
      | .error e => (rsDelete st1 token, httpError 500 ("Chromedp Error: " ++ e))
      | .ok _buf =>
        if writeOk then (rsDelete st1 token, { status := 200, body := [] })
        else (rsDelete st1 token, httpError 500 "Failed to write PDF file")

-- --- cli-handover and open-file handlers ---

/-- Handler for `POST /api/cli-handover`.  `body` is the decoded JSON payload
(`.error` = decode failure with the decoder's message); `newID` is the
`generateID` output.  HTML payloads are run through the inliner before being
stored; the response body is the plain-text ID.  (The background browser
launch to `/?fileId=ID` is a detached effect with no observable return.) -/
def cliHandoverHandler (env : InlineEnv) (st : FileStore)
    (body : Except String FileData) (newID : String) : FileStore × HttpResponse :=
  match body with
  | .error e => (st, httpError 400 e)
  | .ok payload =>
    let payload2 :=
      match base64Decode payload.data with
      | some dataBytes =>
        let ext := goToLower (goExt payload.fileName)
        if ext = ".html" ∨ ext = ".htm" then
          { payload with
            data := base64Encode (utf8Bytes (inlineLocalImages env (bytesToStr dataBytes) payload.fileName)) }
        else payload
      | none => payload
    ((newID, payload2) :: st, { status := 200, body := utf8Bytes newID })

/-- MIME type chosen by the `path` branch of the open-file handler. -/
def openFileMime (ext : String) : String :=
  if ext = ".html" ∨ ext = ".htm" then "text/html"
  else if ext = ".pdf" then "application/pdf"
  else if ext = ".docx" then
    "application/vnd.openxmlformats-officedocument.wordprocessingml.document"
  else "application/octet-stream"

/-- Handler for `GET /api/open-file`.  `pathParam` is the `path` query value
when present (resolved first), `fileIdParam` the `fileId` value.  Disk reads
go through `env.readFile`. -/
def openFileHandler (env : InlineEnv) (st : FileStore)
    (pathParam : Option String) (fileIdParam : Option String) : HttpResponse :=
  match pathParam with
  | some filePath =>
    if filePath = "" then httpError 400 "Empty file path"
    else
      match env.readFile filePath with
      | none => httpError 404 "Failed to read file: read error"
      | some content =>
        let ext := goToLower (goExt filePath)
        let finalContent :=
          if ext = ".html" ∨ ext = ".htm" then
            utf8Bytes (inlineLocalImages env (bytesToStr content) filePath)
          else content
        { status := 200, body := finalContent }
  | none =>
    let targetID := fileIdParam.getD ""
    match st.lookup targetID with
    | some data =>
      match base64Decode data.data with
      | none => httpError 500 "Failed to decode stored file"
      | some decoded => { status := 200, body := decoded }
    | none => httpError 404 "File ID not found"

-- --- save-file handler ---

/-- One entry of `r.MultipartForm.File["assets"]`, with the outcomes of its
`fileHeader.Open()` and `os.Create(assetPath)` calls (the `io.Copy` result
for assets is discarded by the source). -/
structure AssetPart where
  filename : String
  openOk : Bool
  createOk : Bool
  deriving DecidableEq, Repr

/-- Decoded `POST /api/save-file` multipart request, with the parse outcome
and the presence of the `html` form file. -/
structure SaveRequest where
  parseOk : Bool
  filePath : String
  htmlPresent : Bool
  assets : List AssetPart
  deriving DecidableEq, Repr

/-- Environment of the save handler: GOOS and `filepath` helpers, plus the
outcomes of its filesystem calls. -/
structure SaveEnv where
  windows : Bool
  clean : String → String
  dir : String → String
  base : String → String
  join : String → String → String
  mkdirOk : String → Bool
  createOk : String → Bool
  copyOk : Bool
  openRes : String → Option Handle
  createErrText : String
  copyErrText : String

/-- The placement strategy of the save handler (lines deciding `finalDir` and
`finalHtmlPath`), including the `os.MkdirAll` error responses.  Markdown
targets always use the `<name>_assets` sidecar directory; other targets
bundle into a `<name>` subdirectory only when assets are present and the
parent directory name does not already fold-equal the base name. -/
def savePlacement (env : SaveEnv) (inputPath : String) (hasAssets : Bool) :
    Except HttpResponse (String × String) :=
  let inputDir := env.dir inputPath
  let inputName := env.base inputPath
  let inputExt := goExt inputName
  let inputNameNoExt := goTrimSuffix inputName inputExt
  let parentDirName := env.base inputDir
  if goToLower inputExt = ".md" ∨ goToLower inputExt = ".markdown" then
    let finalDir := env.join inputDir (inputNameNoExt ++ "_assets")
    if hasAssets ∧ ¬ env.mkdirOk finalDir then
      .error (httpError 500 "Failed to create assets directory")
    else .ok (finalDir, inputPath)
  else
    let shouldBundle := hasAssets ∧ ¬ eqFold parentDirName inputNameNoExt
    if shouldBundle then
      let finalDir := env.join inputDir inputNameNoExt
      if ¬ env.mkdirOk finalDir then .error (httpError 500 "Failed to create directory")
      else .ok (finalDir, env.join finalDir inputName)
    else .ok (inputDir, inputPath)

/-- Handler for `POST /api/save-file`.  Returns the updated lock registry, the
response, and the list of asset paths actually written.  The advisory lock on
the target is released before the write and re-acquired when create or copy
fails; per-asset failures are skipped silently. -/
def saveFileHandler (env : SaveEnv) (st : Registry) (req : SaveRequest) :
    Registry × HttpResponse × List String :=
  if ¬ req.parseOk then (st, httpError 400 "Failed to parse multipart form", [])
  else if req.filePath = "" then (st, httpError 400 "File path is empty", [])
  else
    let hasAssets := req.assets.length > 0
    match savePlacement env req.filePath hasAssets with
    | .error resp => (st, resp, [])
    | .ok (finalDir, finalHtmlPath) =>
      if ¬ req.htmlPresent then (st, httpError 400 "Content file part missing", [])
      else
        let st1 := unlockFile env.windows env.clean st finalHtmlPath
        if ¬ env.createOk finalHtmlPath then
          (lockFile env.windows env.clean env.openRes st1 finalHtmlPath,
           { status := 500,
             body := utf8Bytes (jsonErrorObj
               ("Failed to write file: " ++ env.createErrText ++
                ". The file might be open in another program.")) },
           [])
        else if ¬ env.copyOk then
          (lockFile env.windows env.clean env.openRes st1 finalHtmlPath,
           { status := 500,
             body := utf8Bytes (jsonErrorObj ("Failed to save content: " ++ env.copyErrText)) },
           [])
        else
          let written :=
            if hasAssets then
              req.assets.filterMap fun a =>
                if a.openOk then
                  if a.createOk then some (env.join finalDir a.filename) else none
                else none
            else []
          (st1, { status := 200, body := utf8Bytes (jsonDialogResponse finalHtmlPath) }, written)

-- --- main: port arbitration and the secondary-instance branch ---

/-- The fixed loopback port. -/
def appPort : Nat := 58888

/-- `targetUrl` computed at the top of `main`. -/
def targetUrl : String := "http://127.0.0.1:" ++ toString appPort

/-- Externally visible steps `main` can take, in order. -/
inductive MainAction where
  | postHandover (url : String) (payload : FileData) (timeoutSeconds : Nat)
  | openBrowser (url : String)
  | startHttpApi
  | runTrayLoop
  deriving DecidableEq, Repr

/-- OS environment of `main`: `os.Args`, and the outcomes of `filepath.Abs`,
`os.Stat` (`some isDir` when the path exists), `os.ReadFile`, and the
handover `client.Post` (whose outcome the secondary ignores apart from
closing the body). -/
structure OsEnv where
  argv : List String
  absPath : String → String
  statIsDir : String → Option Bool
  readFile : String → Option Bytes
  postOk : Bool

/-- The secondary-instance branch of `main` (port bind failed): with a file
argument naming an existing non-directory file, read it, base64-encode it and
POST it to the primary's handover endpoint with a 2-second client timeout,
then exit regardless of the POST outcome; with no file argument, open the
default browser on the primary's root URL and exit.  Any stat/read failure
exits silently. -/
def secondaryActions (env : OsEnv) : List MainAction :=
  if env.argv.length > 1 then
    match env.argv.get? 1 with
    | some filePath =>
      let absP := env.absPath filePath
      match env.statIsDir absP with
      | some false =>
        match env.readFile absP with
        | some content =>
          [.postHandover (targetUrl ++ "/api/cli-handover")
            { fileName := absP, data := base64Encode content } 2]
        | none => []
      | _ => []
    | none => []
  else
    [.openBrowser targetUrl]

/-- Control-flow skeleton of the primary branch: serve the HTTP API, launch
the startup browser, run the tray message loop (per-route behaviour is
modelled by the handler functions above). -/
def primaryActions : List MainAction :=
  [.startHttpApi, .openBrowser targetUrl, .runTrayLoop]

/-- `main` after the `net.Listen` call: the bind outcome decides the role. -/
def mainActions (bindOk : Bool) (env : OsEnv) : List MainAction :=
  if bindOk then primaryActions else secondaryActions env

-- --- Concrete environments used by the witnesses ---

/-- Inliner environment over a filesystem with no readable files. -/
def noFsInlineEnv : InlineEnv where
  windows := true
  dir := fun _ => "."
  join := fun a b => a ++ "\\" ++ b
  readFile := fun _ => none
  detectMime := fun _ => "application/octet-stream"

/-- OS environment of a secondary launch handing over `C:\notes\todo.md`. -/
def handoverOsEnv : OsEnv where
  argv := ["editor.exe", "C:\\notes\\todo.md"]
  absPath := id
  statIsDir := fun _ => some false
  readFile := fun _ => some (utf8Bytes "hi")
  postOk := true

/-- Save environment for witnesses: every filesystem call succeeds; the
requests below target `/docs/report.html`. -/
def demoSaveEnv : SaveEnv where
  windows := false
  clean := id
  dir := fun _ => "/docs"
  base := fun p => if p = "/docs" then "docs" else "report.html"
  join := fun a b => a ++ "/" ++ b
  mkdirOk := fun _ => true
  createOk := fun _ => true
  copyOk := true
  openRes := fun _ => none
  createErrText := ""
  copyErrText := ""

/-- Save request with three assets, of which one fails to open and one fails
to create. -/
def demoSaveReq : SaveRequest where
  parseOk := true
  filePath := "/docs/report.html"
  htmlPresent := true
  assets := [{ filename := "img1.png", openOk := true, createOk := true },
             { filename := "img2.png", openOk := false, createOk := true },
             { filename := "img3.png", openOk := true, createOk := false }]

/-- Save environment where creating the target file fails but reopening it
for the advisory lock succeeds. -/
def failingSaveEnv : SaveEnv where
  windows := false
  clean := id
  dir := fun _ => "/docs"
  base := fun p => if p = "/docs" then "docs" else "report.html"
  join := fun a b => a ++ "/" ++ b
  mkdirOk := fun _ => true
  createOk := fun _ => false
  copyOk := true
  openRes := fun _ => some 7
  createErrText := "open /docs/report.html: permission denied"
  copyErrText := ""

/-- Asset-free save request for the write-failure scenario. -/
def failingSaveReq : SaveRequest where
  parseOk := true
  filePath := "/docs/report.html"
  htmlPresent := true
  assets := []

-- ------------------------------------------------------------------
-- Theorems
-- ------------------------------------------------------------------

/-- Looking up a key in a list from which every pair with that key was
filtered out yields nothing. -/
theorem lookup_filter_ne {α : Type} (l : List (String × α)) (k : String) :
    (l.filter fun e => e.1 ≠ k).lookup k = none := by
  induction l with
  | nil => rfl
  | cons e tl ih =>
    simp only [List.filter]
    by_cases h : e.1 = k
    · rw [decide_eq_false (by simp [h])]
      exact ih
    · rw [decide_eq_true (by simp [h] : ¬e.1 = k)]
      simp only [List.lookup]
      rw [beq_eq_false_iff_ne.mpr fun hk => h hk.symm]
      exact ih

/-- Counting key occurrences after removing that key yields zero. -/
theorem handleCount_filter_ne {α : Type} (l : List (String × α)) (k : String) :
    ((l.filter fun e => e.1 ≠ k).filter fun e => e.1 = k) = [] := by
  induction l with
  | nil => rfl
  | cons e tl ih =>
    by_cases h : e.1 = k
    · simp [List.filter, h, ih]
    · simp [List.filter, h, ih]

/-- Filtering twice with the same predicate is filtering once. -/
theorem filter_idem {α : Type} (p : α → Bool) (l : List α) :
    (l.filter p).filter p = l.filter p := by
  induction l with
  | nil => rfl
  | cons a tl ih =>
    by_cases h : p a
    · simp [List.filter, h, ih]
    · simp [List.filter, h, ih]

/-- C5 helper: a key absent from the lookup occurs zero times. -/
theorem handleCount_of_lookup_none (st : Registry) (k : String)
    (h : st.lookup k = none) : handleCount st k = 0 := by
  induction st with
  | nil => rfl
  | cons e tl ih =>
    simp only [List.lookup] at h
    by_cases hk : k = e.1
    · rw [beq_iff_eq.mpr hk] at h
      exact absurd h (by simp)
    · rw [beq_eq_false_iff_ne.mpr hk] at h
      simp only [handleCount, List.filter]
      rw [decide_eq_false fun hh => hk hh.symm]
      exact ih h

/-- C4 helper: a key present in the lookup occurs at least once. -/
theorem handleCount_pos_of_lookup_some (st : Registry) (k : String)
    (h : (st.lookup k).isSome = true) : 1 ≤ handleCount st k := by
  induction st with
  | nil => simp [List.lookup] at h
  | cons e tl ih =>
    simp only [List.lookup] at h
    by_cases hk : k = e.1
    · simp only [handleCount, List.filter]
      rw [decide_eq_true hk.symm]
      simp
    · rw [beq_eq_false_iff_ne.mpr hk] at h
      simp only [handleCount, List.filter]
      rw [decide_eq_false fun hh => hk hh.symm]
      exact ih h

/-- C4 helper: `lockFile` keeps every per-key handle count at most one. -/
theorem lockFile_count_le_one (w : Bool) (cl : String → String)
    (o : String → Option Handle) (st : Registry) (p : String)
    (hinv : ∀ k, handleCount st k ≤ 1) :
    ∀ k, handleCount (lockFile w cl o st p) k ≤ 1 := by
  intro k
  unfold lockFile
  by_cases hl : ((st.lookup (getLockKey w cl p)).isSome : Prop)
  · simp [hl]
    exact hinv k
  · simp only [Bool.not_eq_true] at hl
    rw [Bool.eq_false_iff] at hl
    simp only [if_neg hl]
    match ho : o p with
    | none => exact hinv k
    | some f =>
      simp only [handleCount, List.filter]
      by_cases hk : getLockKey w cl p = k
      · have : decide (getLockKey w cl p = k) = true := by simp [hk]
        rw [this]
        have hnone : st.lookup k = none := by
          rw [← hk]
          rcases hln : st.lookup (getLockKey w cl p) with _ | v
          · rfl
          · exact absurd (by rw [hln]; rfl) hl
        have := handleCount_of_lookup_none st k hnone
        simp only [handleCount] at this
        simp [this]
      · have : decide (getLockKey w cl p = k) = false := by simp [hk]
        rw [this]
        exact hinv k

/-- C4 helper: `unlockFile` never increases a per-key handle count. -/
theorem unlockFile_count_le (w : Bool) (cl : String → String)
    (st : Registry) (p : String) (k : String) :
    handleCount (unlockFile w cl st p) k ≤ handleCount st k := by
  unfold unlockFile handleCount
  exact List.Sublist.length_le (List.Sublist.filter _ (List.filter_sublist st))

/-- C4 helper: every reachable registry state keeps at most one handle per
canonical key. -/
theorem runLockOps_count_le_one (w : Bool) (cl : String → String)
    (ops : List LockOp) : ∀ k, handleCount (runLockOps w cl ops) k ≤ 1 := by
  suffices h : ∀ (ops : List LockOp) (st : Registry),
      (∀ k, handleCount st k ≤ 1) →
      ∀ k, handleCount (ops.foldl (applyLockOp w cl) st) k ≤ 1 by
    intro k
    exact h ops [] (fun k => by simp [handleCount]) k
  intro ops
  induction ops with
  | nil => intro st hst k; exact hst k
  | cons op rest ih =>
    intro st hst k
    simp only [List.foldl]
    apply ih
    intro k2
    match op with
    | .lock p o => exact lockFile_count_le_one w cl o st p hst k2
    | .unlock p => exact le_trans (unlockFile_count_le w cl st p k2) (hst k2)
    | .unlockAllOp => simp [applyLockOp, unlockAll, handleCount]

/-- C2/C5 helper: an unknown token yields the 404 page. -/
theorem renderView_404_of_none (st : RenderStore) (tok : String)
    (h : st.lookup tok = none) :
    renderViewHandler st tok = { status := 404, body := utf8Bytes "404 page not found\n" } := by
  unfold renderViewHandler
  rw [h]

/-- C4: Lock is idempotent — from any reachable registry state (at most one
handle per canonical key), locking a path twice leaves exactly one handle
registered for the canonical form of the path (provided the OS lets the file
be opened, or it was already locked), and every registry state reachable by
lock/unlock/unlockAll operations keeps at most one handle per canonical
path. -/
theorem c4_lock_idempotent (w : Bool) (cl : String → String)
    (o : String → Option Handle) (st : Registry) (p : String)
    (hinv : ∀ k, handleCount st k ≤ 1)
    (hopen : (o p).isSome = true ∨ (st.lookup (getLockKey w cl p)).isSome = true) :
    handleCount (lockFile w cl o (lockFile w cl o st p) p) (getLockKey w cl p) = 1
    ∧ ∀ ops k, handleCount (runLockOps w cl ops) k ≤ 1 := by
  constructor
  · by_cases hl : (st.lookup (getLockKey w cl p)).isSome = true
    · have h1 : lockFile w cl o st p = st := by
        unfold lockFile
        rw [if_pos hl]
      rw [h1, h1]
      exact le_antisymm (hinv _) (handleCount_pos_of_lookup_some st _ hl)
    · have hnone : st.lookup (getLockKey w cl p) = none := by
        rcases hln : st.lookup (getLockKey w cl p) with _ | v
        · rfl
        · exact absurd (by rw [hln]; rfl) hl
      have ho : (o p).isSome = true := by
        rcases hopen with h | h
        · exact h
        · rw [hnone] at h
          exact absurd h (by simp)
      obtain ⟨f, hf⟩ := Option.isSome_iff_exists.mp ho
      have h1 : lockFile w cl o st p = (getLockKey w cl p, f) :: st := by
        unfold lockFile
        rw [if_neg hl, hf]
      have h2 : lockFile w cl o ((getLockKey w cl p, f) :: st) p
          = (getLockKey w cl p, f) :: st := by
        unfold lockFile
        rw [if_pos]
        simp [List.lookup]
      rw [h1, h2]
      simp only [handleCount, List.filter, decide_eq_true rfl]
      have := handleCount_of_lookup_none st _ hnone
      simp only [handleCount] at this
      simp [this]
  · exact fun ops k => runLockOps_count_le_one w cl ops k

/-- C4 witness: locking `/tmp/a.txt` twice from the empty registry (with the
open succeeding) registers exactly one handle. -/
theorem c4_lock_idempotent_witness :
    (∀ k, handleCount ([] : Registry) k ≤ 1)
    ∧ handleCount
        (lockFile false id (fun _ => some 0)
          (lockFile false id (fun _ => some 0) [] "/tmp/a.txt") "/tmp/a.txt")
        (getLockKey false id "/tmp/a.txt") = 1 :=
  ⟨fun _ => Nat.zero_le 1,
   (c4_lock_idempotent false id (fun _ => some 0) [] "/tmp/a.txt"
     (fun _ => Nat.zero_le 1) (Or.inl rfl)).1⟩

/-- C5: Lock followed by Unlock leaves zero handles for the canonical path,
and a further Unlock is a no-op that changes nothing (and, being a total
function, does not error). -/
theorem c5_lock_unlock_roundtrip (w : Bool) (cl : String → String)
    (o : String → Option Handle) (st : Registry) (p : String) :
    handleCount (unlockFile w cl (lockFile w cl o st p) p) (getLockKey w cl p) = 0
    ∧ unlockFile w cl (unlockFile w cl (lockFile w cl o st p) p) p
      = unlockFile w cl (lockFile w cl o st p) p :=
  ⟨handleCount_of_lookup_none _ _ (lookup_filter_ne _ _), filter_idem _ _⟩

/-- C2: after the screenshot or PDF export handler returns — on success and
on every post-storage failure path (render error or timeout via the `render`
outcome, PDF write error via `writeOk`) — the render token is gone from the
store and a subsequent render-view fetch of it yields 404. -/
theorem c2_render_token_cleanup
    (stS : RenderStore) (reqS : ScreenshotRequest) (tokS : String)
    (renS : Except String Bytes)
    (stP : RenderStore) (reqP : PdfExportRequest) (tokP : String)
    (renP : Except String Bytes) (writeOk : Bool)
    (hS : reqS.html ≠ "") (hPh : reqP.html ≠ "") (hPp : reqP.path ≠ "") :
    ((screenshotHandler stS (some reqS) tokS renS).1.lookup tokS = none
      ∧ renderViewHandler (screenshotHandler stS (some reqS) tokS renS).1 tokS
          = { status := 404, body := utf8Bytes "404 page not found\n" })
    ∧ ((pdfExportHandler stP (some reqP) tokP renP writeOk).1.lookup tokP = none
      ∧ renderViewHandler (pdfExportHandler stP (some reqP) tokP renP writeOk).1 tokP
          = { status := 404, body := utf8Bytes "404 page not found\n" }) := by
  have hs1 : (screenshotHandler stS (some reqS) tokS renS).1
      = rsDelete (rsPut stS tokS reqS.html) tokS := by
    simp only [screenshotHandler]
    rw [if_neg hS]
    cases renS <;> rfl
  have hp1 : (pdfExportHandler stP (some reqP) tokP renP writeOk).1
      = rsDelete (rsPut stP tokP reqP.html) tokP := by
    simp only [pdfExportHandler]
    rw [if_neg (not_or.mpr ⟨hPh, hPp⟩)]
    cases renP with
    | error e => rfl
    | ok buf => cases writeOk <;> rfl
  refine ⟨⟨?_, ?_⟩, ⟨?_, ?_⟩⟩
  · rw [hs1]
    exact lookup_filter_ne _ _
  · rw [hs1]
    exact renderView_404_of_none _ _ (lookup_filter_ne _ _)
  · rw [hp1]
    exact lookup_filter_ne _ _
  · rw [hp1]
    exact renderView_404_of_none _ _ (lookup_filter_ne _ _)

/-- C2 witness: a timed-out screenshot render and a PDF render whose disk
write fails both leave their token absent and render-view returning 404. -/
theorem c2_render_token_cleanup_witness :
    (({ html := "<p>x</p>", width := 800 } : ScreenshotRequest).html ≠ ""
      ∧ ({ html := "<q>", path := "C:\\o.pdf", scale := 1 } : PdfExportRequest).html ≠ ""
      ∧ ({ html := "<q>", path := "C:\\o.pdf", scale := 1 } : PdfExportRequest).path ≠ "")
    ∧ (((screenshotHandler [] (some { html := "<p>x</p>", width := 800 }) "a1"
          (.error "context deadline exceeded")).1.lookup "a1" = none
      ∧ renderViewHandler (screenshotHandler [] (some { html := "<p>x</p>", width := 800 }) "a1"
          (.error "context deadline exceeded")).1 "a1"
          = { status := 404, body := utf8Bytes "404 page not found\n" })
    ∧ ((pdfExportHandler [("t", "h")] (some { html := "<q>", path := "C:\\o.pdf", scale := 1 })
          "t" (.ok [1]) false).1.lookup "t" = none
      ∧ renderViewHandler (pdfExportHandler [("t", "h")]
          (some { html := "<q>", path := "C:\\o.pdf", scale := 1 }) "t" (.ok [1]) false).1 "t"
          = { status := 404, body := utf8Bytes "404 page not found\n" })) :=
  ⟨⟨by decide, by decide, by decide⟩,
   c2_render_token_cleanup [] { html := "<p>x</p>", width := 800 } "a1"
     (.error "context deadline exceeded") [("t", "h")]
     { html := "<q>", path := "C:\\o.pdf", scale := 1 } "t" (.ok [1]) false
     (by decide) (by decide) (by decide)⟩

/-- C9: dialog cancellation is not an error — when the native open or save
dialog reports cancellation, both dialog handlers answer HTTP 200 with the
JSON body carrying an empty path. -/
theorem c9_dialog_cancellation (chosen filterType : String) :
    dialogOpenHandler (getNativeOpenDialog true chosen)
      = { status := 200, body := utf8Bytes (jsonDialogResponse "") }
    ∧ dialogSaveHandler filterType (getNativeSaveDialog filterType true chosen)
      = { status := 200, body := utf8Bytes (jsonDialogResponse "") } :=
  ⟨rfl, rfl⟩

/-- C3 helper: hex encoding yields two characters per byte. -/
theorem hexEncodeBytes_length (bs : Bytes) :
    (hexEncodeBytes bs).length = 2 * bs.length := by
  induction bs with
  | nil => rfl
  | cons b tl ih =>
    show ((b :: tl).flatMap hexByte).length = 2 * (tl.length + 1)
    rw [List.flatMap_cons, List.length_append]
    have h : (tl.flatMap hexByte).length = 2 * tl.length := ih
    rw [h]
    simp [hexByte]
    omega

/-- C3 helper: indexing the hex alphabet below its length stays inside it. -/
theorem isLowerHex_getD (n : Nat) (h : n < 16) :
    isLowerHex (hexDigits.getD n '0') = true := by
  interval_cases n <;> decide

/-- C3 helper: every character of a hex encoding is a lowercase hex digit. -/
theorem hexEncodeBytes_all_lower (bs : Bytes) :
    (hexEncodeBytes bs).data.all isLowerHex = true := by
  induction bs with
  | nil => rfl
  | cons b tl ih =>
    show ((b :: tl).flatMap hexByte).all isLowerHex = true
    rw [List.flatMap_cons, List.all_append]
    refine Bool.and_eq_true_iff.mpr ⟨?_, ih⟩
    have h1 : b.toNat / 16 < 16 := by
      have : b.toNat < 256 := b.toNat_lt
      omega
    have h2 : b.toNat % 16 < 16 := Nat.mod_lt _ (by omega)
    simp only [hexByte, List.all_cons, List.all_nil, Bool.and_true, Bool.and_eq_true_iff]
    exact ⟨isLowerHex_getD _ h1, isLowerHex_getD _ h2⟩

/-- C3: a cli-handover with a non-HTML file name and valid base64 data
responds with the generated ID (16 lowercase hex characters), and a
subsequent open-file fetch by that ID returns exactly the decoded bytes. -/
theorem c3_handover_roundtrip
    (env : InlineEnv) (st : FileStore) (payload : FileData)
    (randomBytes contentBytes : Bytes)
    (hlen : randomBytes.length = 8)
    (hext : ¬(goToLower (goExt payload.fileName) = ".html"
              ∨ goToLower (goExt payload.fileName) = ".htm"))
    (hdec : base64Decode payload.data = some contentBytes) :
    (cliHandoverHandler env st (.ok payload) (generateID randomBytes)).2
      = { status := 200, body := utf8Bytes (generateID randomBytes) }
    ∧ (generateID randomBytes).length = 16
    ∧ (generateID randomBytes).data.all isLowerHex = true
    ∧ openFileHandler env (cliHandoverHandler env st (.ok payload) (generateID randomBytes)).1
        none (some (generateID randomBytes))
      = { status := 200, body := contentBytes } := by
  have hstore : cliHandoverHandler env st (.ok payload) (generateID randomBytes)
      = ((generateID randomBytes, payload) :: st,
         { status := 200, body := utf8Bytes (generateID randomBytes) }) := by
    simp only [cliHandoverHandler, hdec]
    rw [if_neg hext]
  refine ⟨by rw [hstore], ?_, hexEncodeBytes_all_lower randomBytes, ?_⟩
  · show (hexEncodeBytes randomBytes).length = 16
    rw [hexEncodeBytes_length, hlen]
  · rw [hstore]
    simp only [openFileHandler, Option.getD_some, List.lookup, beq_self_eq_true, hdec]

/-- C3 witness: handing over `a.md` with the base64 of `hello` and a fixed
all-zero random draw; the stored file round-trips byte-for-byte. -/
theorem c3_handover_roundtrip_witness :
    ((List.replicate 8 (0 : UInt8)).length = 8
      ∧ ¬(goToLower (goExt "a.md") = ".html" ∨ goToLower (goExt "a.md") = ".htm")
      ∧ base64Decode "aGVsbG8=" = some (utf8Bytes "hello"))
    ∧ ((cliHandoverHandler noFsInlineEnv []
          (.ok { fileName := "a.md", data := "aGVsbG8=" })
          (generateID (List.replicate 8 (0 : UInt8)))).2
        = { status := 200, body := utf8Bytes (generateID (List.replicate 8 (0 : UInt8))) }
      ∧ (generateID (List.replicate 8 (0 : UInt8))).length = 16
      ∧ (generateID (List.replicate 8 (0 : UInt8))).data.all isLowerHex = true
      ∧ openFileHandler noFsInlineEnv
          (cliHandoverHandler noFsInlineEnv []
            (.ok { fileName := "a.md", data := "aGVsbG8=" })
            (generateID (List.replicate 8 (0 : UInt8)))).1
          none (some (generateID (List.replicate 8 (0 : UInt8))))
        = { status := 200, body := utf8Bytes "hello" }) :=
  ⟨⟨by decide, by decide, by decide⟩,
   c3_handover_roundtrip noFsInlineEnv [] { fileName := "a.md", data := "aGVsbG8=" }
     (List.replicate 8 (0 : UInt8)) (utf8Bytes "hello")
     (by decide) (by decide) (by decide)⟩

/-- C6 helper: whatever the OS environment, the secondary branch only ever
performs a single handover POST, a single browser launch, or nothing. -/
theorem secondaryActions_shape (env : OsEnv) :
    secondaryActions env = []
    ∨ (∃ u p, secondaryActions env = [MainAction.postHandover u p 2])
    ∨ secondaryActions env = [MainAction.openBrowser targetUrl] := by
  unfold secondaryActions
  by_cases h : env.argv.length > 1
  · rw [if_pos h]
    cases harg : env.argv.get? 1 with
    | none => exact Or.inl rfl
    | some fp =>
      dsimp only
      cases hstat : env.statIsDir (env.absPath fp) with
      | none => exact Or.inl rfl
      | some isDir =>
        cases isDir with
        | false =>
          cases hread : env.readFile (env.absPath fp) with
          | none => exact Or.inl rfl
          | some content => exact Or.inr (Or.inl ⟨_, _, rfl⟩)
        | true => exact Or.inl rfl
  · rw [if_neg h]
    exact Or.inr (Or.inr rfl)

/-- C6: when the port bind fails the process is Secondary: it never starts
the HTTP API or the tray loop; with a file argument naming an existing
non-directory readable file it performs exactly one handover POST of the
base64-encoded content to the primary's endpoint with a 2-second timeout
(and nothing else, regardless of the POST outcome — no retry); with no file
argument it performs exactly one default-browser navigation to the
primary's root URL. -/
theorem c6_secondary_role (env : OsEnv) :
    (MainAction.startHttpApi ∉ mainActions false env
      ∧ MainAction.runTrayLoop ∉ mainActions false env)
    ∧ (∀ fp content, env.argv.get? 1 = some fp →
        env.statIsDir (env.absPath fp) = some false →
        env.readFile (env.absPath fp) = some content →
        mainActions false env
          = [.postHandover (targetUrl ++ "/api/cli-handover")
              { fileName := env.absPath fp, data := base64Encode content } 2])
    ∧ (env.argv.length ≤ 1 → mainActions false env = [.openBrowser targetUrl])
    ∧ (∀ b, secondaryActions { env with postOk := b } = secondaryActions env) := by
  have hmain : mainActions false env = secondaryActions env := rfl
  refine ⟨?_, ?_, ?_, fun b => rfl⟩
  · rw [hmain]
    rcases secondaryActions_shape env with h | ⟨u, p, h⟩ | h <;> rw [h] <;> simp
  · intro fp content harg hstat hread
    have hlen : env.argv.length > 1 := by
      by_contra hle
      push_neg at hle
      rw [List.get?_eq_none.mpr hle] at harg
      exact Option.noConfusion harg
    rw [hmain]
    unfold secondaryActions
    rw [if_pos hlen]
    simp only [harg, hstat, hread]
  · intro hle
    rw [hmain]
    unfold secondaryActions
    rw [if_neg (by omega)]

/-- Save helper: with no assets the placement always keeps the input path as
the document path. -/
theorem savePlacement_noAssets (env : SaveEnv) (ip : String) :
    ∃ fd, savePlacement env ip false = .ok (fd, ip) := by
  unfold savePlacement
  dsimp only
  by_cases hmd : (goToLower (goExt (env.base ip)) = ".md"
      ∨ goToLower (goExt (env.base ip)) = ".markdown")
  · rw [if_pos hmd, if_neg (by rintro ⟨hf, _⟩; exact absurd hf (by decide))]
    exact ⟨_, rfl⟩
  · rw [if_neg hmd, if_neg (by rintro ⟨hf, _⟩; exact absurd hf (by decide))]
    exact ⟨_, rfl⟩

/-- Save helper: full description of the success path of the save handler —
the lock stays released, the response reports the final path, and exactly
the assets whose open and create both succeed are written. -/
theorem saveFile_success (env : SaveEnv) (st : Registry) (req : SaveRequest)
    (finalDir finalHtmlPath : String)
    (hparse : req.parseOk = true)
    (hpath : req.filePath ≠ "")
    (hhtml : req.htmlPresent = true)
    (hplace : savePlacement env req.filePath (req.assets.length > 0)
      = .ok (finalDir, finalHtmlPath))
    (hcreate : env.createOk finalHtmlPath = true)
    (hcopy : env.copyOk = true) :
    saveFileHandler env st req
      = (unlockFile env.windows env.clean st finalHtmlPath,
         { status := 200, body := utf8Bytes (jsonDialogResponse finalHtmlPath) },
         if req.assets.length > 0 then
           req.assets.filterMap fun a =>
             if a.openOk then
               if a.createOk then some (env.join finalDir a.filename) else none
             else none
         else []) := by
  unfold saveFileHandler
  rw [if_neg (fun h => h hparse), if_neg hpath]
  dsimp only
  rw [hplace]
  dsimp only
  rw [if_neg (fun h => h hhtml), if_neg (fun h => h hcreate), if_neg (fun h => h hcopy)]

/-- C7 helper: after unlocking and then best-effort relocking a path, it is
locked exactly when the reopen succeeded. -/
theorem lockFile_lookup_after_unlock (w : Bool) (cl : String → String)
    (o : String → Option Handle) (st : Registry) (p : String) :
    ((lockFile w cl o (unlockFile w cl st p) p).lookup (getLockKey w cl p)).isSome
      = (o p).isSome := by
  have hnone : (unlockFile w cl st p).lookup (getLockKey w cl p) = none :=
    lookup_filter_ne st _
  unfold lockFile
  dsimp only
  rw [hnone]
  rw [if_neg (by simp)]
  cases ho : o p with
  | none => simp [hnone]
  | some f => simp [List.lookup]

/-- C10: when the document write succeeds, per-asset open/create failures
are silently skipped (the loop continues with the remaining assets) and the
endpoint still answers HTTP 200 with the final path in the JSON body. -/
theorem c10_assets_best_effort (env : SaveEnv) (st : Registry) (req : SaveRequest)
    (finalDir finalHtmlPath : String)
    (hparse : req.parseOk = true)
    (hpath : req.filePath ≠ "")
    (hhtml : req.htmlPresent = true)
    (hplace : savePlacement env req.filePath (req.assets.length > 0)
      = .ok (finalDir, finalHtmlPath))
    (hcreate : env.createOk finalHtmlPath = true)
    (hcopy : env.copyOk = true) :
    (saveFileHandler env st req).2.1
      = { status := 200, body := utf8Bytes (jsonDialogResponse finalHtmlPath) }
    ∧ (saveFileHandler env st req).2.2
      = (if req.assets.length > 0 then
            req.assets.filterMap fun a =>
              if a.openOk then
                if a.createOk then some (env.join finalDir a.filename) else none
              else none
          else []) := by
  rw [saveFile_success env st req finalDir finalHtmlPath hparse hpath hhtml hplace
    hcreate hcopy]
  exact ⟨rfl, rfl⟩

/-- C10 witness: a save of `/docs/report.html` with three assets of which one
fails to open and one fails to create still answers 200 with the bundled
path, writing only the surviving asset. -/
theorem c10_assets_best_effort_witness :
    (demoSaveReq.parseOk = true ∧ demoSaveReq.filePath ≠ ""
      ∧ demoSaveReq.htmlPresent = true
      ∧ savePlacement demoSaveEnv demoSaveReq.filePath (demoSaveReq.assets.length > 0)
          = .ok ("/docs/report", "/docs/report/report.html")
      ∧ demoSaveEnv.createOk "/docs/report/report.html" = true
      ∧ demoSaveEnv.copyOk = true)
    ∧ (saveFileHandler demoSaveEnv [] demoSaveReq).2.1
        = { status := 200, body := utf8Bytes (jsonDialogResponse "/docs/report/report.html") }
    ∧ (saveFileHandler demoSaveEnv [] demoSaveReq).2.2 = ["/docs/report/img1.png"] :=
  ⟨⟨by decide, by decide, by decide, by decide, by decide, by decide⟩,
   (c10_assets_best_effort demoSaveEnv [] demoSaveReq "/docs/report"
      "/docs/report/report.html" (by decide) (by decide) (by decide) (by decide)
      (by decide) (by decide)).1,
   ((c10_assets_best_effort demoSaveEnv [] demoSaveReq "/docs/report"
      "/docs/report/report.html" (by decide) (by decide) (by decide) (by decide)
      (by decide) (by decide)).2).trans (by decide)⟩

/-- C7 counterexample: with the save target not locked before the request
(empty registry) and the create call failing, the handler leaves the target
locked — the lock state after the failed save differs from the state before,
refuting the claim that they are equal. -/
theorem c7_lock_state_counterexample :
    (saveFileHandler failingSaveEnv [] failingSaveReq).2.1.status = 500
    ∧ handleCount ([] : Registry)
        (getLockKey failingSaveEnv.windows failingSaveEnv.clean "/docs/report.html") = 0
    ∧ handleCount (saveFileHandler failingSaveEnv [] failingSaveReq).1
        (getLockKey failingSaveEnv.windows failingSaveEnv.clean "/docs/report.html") = 1 := by
  decide

/-- C7 (amended): on a save-file write failure — the create of the target
file failing, or the copy of the uploaded content into it failing — the
handler calls `lockFile` on the exact target path it unlocked just before
the write and answers HTTP 500 with the human-readable JSON error message of
the failing step; afterwards the target is locked exactly when reopening it
succeeds (so a previously locked target whose reopen succeeds is not left
unlocked, but a previously unlocked target becomes locked, and a failed
reopen leaves it unlocked). -/
theorem c7_relock_on_write_failure (env : SaveEnv) (st : Registry) (req : SaveRequest)
    (finalDir finalHtmlPath : String)
    (hparse : req.parseOk = true)
    (hpath : req.filePath ≠ "")
    (hhtml : req.htmlPresent = true)
    (hplace : savePlacement env req.filePath (req.assets.length > 0)
      = .ok (finalDir, finalHtmlPath))
    (hfail : env.createOk finalHtmlPath = false ∨ env.copyOk = false) :
    (saveFileHandler env st req).1
      = lockFile env.windows env.clean env.openRes
          (unlockFile env.windows env.clean st finalHtmlPath) finalHtmlPath
    ∧ (saveFileHandler env st req).2.1
      = (if env.createOk finalHtmlPath = false then
          { status := 500,
            body := utf8Bytes (jsonErrorObj
              ("Failed to write file: " ++ env.createErrText ++
               ". The file might be open in another program.")) }
        else
          { status := 500,
            body := utf8Bytes (jsonErrorObj
              ("Failed to save content: " ++ env.copyErrText)) })
    ∧ (saveFileHandler env st req).2.2 = []
    ∧ (((saveFileHandler env st req).1.lookup
          (getLockKey env.windows env.clean finalHtmlPath)).isSome
        = (env.openRes finalHtmlPath).isSome) := by
  cases hc : env.createOk finalHtmlPath with
  | false =>
    have hmain : saveFileHandler env st req
        = (lockFile env.windows env.clean env.openRes
             (unlockFile env.windows env.clean st finalHtmlPath) finalHtmlPath,
           { status := 500,
             body := utf8Bytes (jsonErrorObj
               ("Failed to write file: " ++ env.createErrText ++
                ". The file might be open in another program.")) },
           []) := by
      unfold saveFileHandler
      rw [if_neg (fun h => h hparse), if_neg hpath]
      dsimp only
      rw [hplace]
      dsimp only
      rw [if_neg (fun h => h hhtml),
          if_pos (by rw [hc]; exact Bool.false_ne_true)]
    refine ⟨by rw [hmain], ?_, by rw [hmain], ?_⟩
    · rw [hmain]
      rfl
    · rw [hmain]
      exact lockFile_lookup_after_unlock env.windows env.clean env.openRes st finalHtmlPath
  | true =>
    have hcopy : env.copyOk = false := by
      rcases hfail with h | h
      · rw [hc] at h
        exact absurd h (by simp)
      · exact h
    have hmain : saveFileHandler env st req
        = (lockFile env.windows env.clean env.openRes
             (unlockFile env.windows env.clean st finalHtmlPath) finalHtmlPath,
           { status := 500,
             body := utf8Bytes (jsonErrorObj
               ("Failed to save content: " ++ env.copyErrText)) },
           []) := by
      unfold saveFileHandler
      rw [if_neg (fun h => h hparse), if_neg hpath]
      dsimp only
      rw [hplace]
      dsimp only
      rw [if_neg (fun h => h hhtml), if_neg (fun hcon => hcon hc),
          if_pos (by rw [hcopy]; exact Bool.false_ne_true)]
    refine ⟨by rw [hmain], ?_, by rw [hmain], ?_⟩
    · rw [hmain]
      rfl
    · rw [hmain]
      exact lockFile_lookup_after_unlock env.windows env.clean env.openRes st finalHtmlPath

/-- C7 (amended) witness: a failing create on `/docs/report.html` with a
successful reopen yields the 500 error and leaves the path locked. -/
theorem c7_relock_on_write_failure_witness :
    (failingSaveReq.parseOk = true ∧ failingSaveReq.filePath ≠ ""
      ∧ failingSaveReq.htmlPresent = true
      ∧ savePlacement failingSaveEnv failingSaveReq.filePath
          (failingSaveReq.assets.length > 0) = .ok ("/docs", "/docs/report.html")
      ∧ (failingSaveEnv.createOk "/docs/report.html" = false
          ∨ failingSaveEnv.copyOk = false))
    ∧ ((saveFileHandler failingSaveEnv [] failingSaveReq).2.1.status = 500
      ∧ ((saveFileHandler failingSaveEnv [] failingSaveReq).1.lookup
           (getLockKey failingSaveEnv.windows failingSaveEnv.clean
             "/docs/report.html")).isSome
          = (failingSaveEnv.openRes "/docs/report.html").isSome) := by
  have h := c7_relock_on_write_failure failingSaveEnv [] failingSaveReq
    "/docs" "/docs/report.html" (by decide) (by decide) (by decide) (by decide)
    (Or.inl (by decide))
  refine ⟨⟨by decide, by decide, by decide, by decide, Or.inl (by decide)⟩, ?_, h.2.2.2⟩
  rw [h.2.1]
  decide

/-- C1: the save placement is the pure function of (extension, asset
presence, parent-dir-name versus base-name fold-equality) that the spec
states — markdown targets keep the request path with a `<base>_assets`
sidecar directory, HTML targets with assets bundle into `<dir>/<base>/` only
when the parent directory name differs from the base name, and a request
with no assets always keeps the request path, which is also the path in the
200 response body. -/
theorem c1_save_placement_policy (env : SaveEnv) (inputPath d n e b pd : String)
    (hnem : inputPath ≠ "")
    (hd : env.dir inputPath = d)
    (hn : env.base inputPath = n)
    (he : goExt n = e)
    (hb : goTrimSuffix n e = b)
    (hpd : env.base d = pd)
    (hne : n = b ++ e) :
    ((goToLower e = ".md" ∨ goToLower e = ".markdown") →
      env.mkdirOk (env.join d (b ++ "_assets")) = true →
      savePlacement env inputPath true = .ok (env.join d (b ++ "_assets"), inputPath))
    ∧ (goToLower e = ".html" → eqFold pd b = false →
        env.mkdirOk (env.join d b) = true →
        savePlacement env inputPath true
          = .ok (env.join d b, env.join (env.join d b) (b ++ e)))
    ∧ (goToLower e = ".html" → eqFold pd b = true →
        savePlacement env inputPath true = .ok (d, inputPath))
    ∧ Except.map Prod.snd (savePlacement env inputPath false) = .ok inputPath
    ∧ (∀ st req, req.parseOk = true → req.filePath = inputPath →
        req.htmlPresent = true → req.assets = [] →
        env.createOk inputPath = true → env.copyOk = true →
        (saveFileHandler env st req).2.1
          = { status := 200, body := utf8Bytes (jsonDialogResponse inputPath) }) := by
  have hred : ∀ hA : Bool, savePlacement env inputPath hA
      = (if goToLower e = ".md" ∨ goToLower e = ".markdown" then
          if hA ∧ ¬ env.mkdirOk (env.join d (b ++ "_assets")) then
            .error (httpError 500 "Failed to create assets directory")
          else .ok (env.join d (b ++ "_assets"), inputPath)
        else
          if hA ∧ ¬ eqFold pd b then
            if ¬ env.mkdirOk (env.join d b) then
              .error (httpError 500 "Failed to create directory")
            else .ok (env.join d b, env.join (env.join d b) n)
          else .ok (d, inputPath)) := by
    intro hA
    unfold savePlacement
    dsimp only
    rw [hd, hn, he, hb, hpd]
  refine ⟨?_, ?_, ?_, ?_, ?_⟩
  · intro hmd hmk
    rw [hred true, if_pos hmd, if_neg (by rintro ⟨_, hno⟩; exact hno hmk)]
  · intro hh hfold hmk
    have hnotmd : ¬(goToLower e = ".md" ∨ goToLower e = ".markdown") := by
      rw [hh]; decide
    rw [hred true, if_neg hnotmd,
        if_pos ⟨rfl, by rw [hfold]; exact Bool.false_ne_true⟩,
        if_neg (fun hcon => hcon hmk), hne]
  · intro hh hfold
    have hnotmd : ¬(goToLower e = ".md" ∨ goToLower e = ".markdown") := by
      rw [hh]; decide
    rw [hred true, if_neg hnotmd,
        if_neg (by rintro ⟨_, hno⟩; exact hno hfold)]
  · by_cases hmd : goToLower e = ".md" ∨ goToLower e = ".markdown"
    · rw [hred false, if_pos hmd,
        if_neg (by rintro ⟨hf, _⟩; exact absurd hf (by decide))]
      rfl
    · rw [hred false, if_neg hmd,
        if_neg (by rintro ⟨hf, _⟩; exact absurd hf (by decide))]
      rfl
  · intro st req hp hfp hh ha hc hcp
    have hassets : (decide (req.assets.length > 0)) = false := by
      rw [ha]; rfl
    have hplace : savePlacement env req.filePath (req.assets.length > 0)
        = .ok (if goToLower e = ".md" ∨ goToLower e = ".markdown" then
                 env.join d (b ++ "_assets") else d, inputPath) := by
      rw [hfp]
      show savePlacement env inputPath (decide (req.assets.length > 0)) = _
      rw [hassets, hred false]
      by_cases hmd : goToLower e = ".md" ∨ goToLower e = ".markdown"
      · rw [if_pos hmd, if_pos hmd,
          if_neg (by rintro ⟨hf, _⟩; exact absurd hf (by decide))]
      · rw [if_neg hmd, if_neg hmd,
          if_neg (by rintro ⟨hf, _⟩; exact absurd hf (by decide))]
    rw [saveFile_success env st req _ inputPath hp (by rw [hfp]; exact hnem) hh hplace
      hc hcp]

/-- C1 witness: saving `/docs/report.html` (parent directory `docs`, base
name `report`) with assets bundles into `/docs/report/report.html`; the same
request without assets keeps `/docs/report.html` and the response reports
it. -/
theorem c1_save_placement_policy_witness :
    (("/docs/report.html" : String) ≠ ""
      ∧ demoSaveEnv.dir "/docs/report.html" = "/docs"
      ∧ demoSaveEnv.base "/docs/report.html" = "report.html"
      ∧ goExt "report.html" = ".html"
      ∧ goTrimSuffix "report.html" ".html" = "report"
      ∧ demoSaveEnv.base "/docs" = "docs"
      ∧ ("report.html" : String) = "report" ++ ".html"
      ∧ goToLower ".html" = ".html"
      ∧ eqFold "docs" "report" = false)
    ∧ savePlacement demoSaveEnv "/docs/report.html" true
        = .ok ("/docs/report", "/docs/report/report.html")
    ∧ Except.map Prod.snd (savePlacement demoSaveEnv "/docs/report.html" false)
        = .ok "/docs/report.html" := by
  have h := c1_save_placement_policy demoSaveEnv "/docs/report.html" "/docs"
    "report.html" ".html" "report" "docs" (by decide) (by decide) (by decide)
    (by decide) (by decide) (by decide) (by decide)
  refine ⟨⟨by decide, by decide, by decide, by decide, by decide, by decide, by decide,
    by decide, by decide⟩, ?_, h.2.2.2.1⟩
  have h2 := h.2.1 (by decide) (by decide) (by decide)
  exact h2.trans (by decide)

/-- C8 helper: a successful tag match splits the input exactly and leaves a
strictly shorter remainder. -/
theorem matchImgAt_spec (l t r : List Char) (h : matchImgAt l = some (t, r)) :
    t ++ r = l ∧ r.length < l.length := by
  rcases l with _ | ⟨c0, l1⟩
  · simp [matchImgAt] at h
  rcases l1 with _ | ⟨c1, l2⟩
  · simp [matchImgAt] at h
  rcases l2 with _ | ⟨c2, l3⟩
  · simp [matchImgAt] at h
  rcases l3 with _ | ⟨c3, l4⟩
  · simp [matchImgAt] at h
  rcases l4 with _ | ⟨d, rest2⟩
  · simp [matchImgAt] at h
  rw [show matchImgAt (c0 :: c1 :: c2 :: c3 :: d :: rest2)
      = (if c0 = '<' ∧ lowerEq c1 'i' ∧ lowerEq c2 'm' ∧ lowerEq c3 'g' ∧ isGoSpace d then
          match (d :: rest2).dropWhile (fun x => x ≠ '>') with
          | g :: rest3 =>
            if g = '>' then
              some (c0 :: c1 :: c2 :: c3 ::
                      ((d :: rest2).takeWhile (fun x => x ≠ '>') ++ ['>']), rest3)
            else none
          | [] => none
        else none) from rfl] at h
  by_cases hcond : (c0 = '<' ∧ lowerEq c1 'i' = true ∧ lowerEq c2 'm' = true
      ∧ lowerEq c3 'g' = true ∧ isGoSpace d = true)
  · rw [if_pos hcond] at h
    rcases hdw : (d :: rest2).dropWhile (fun x => x ≠ '>') with _ | ⟨g, rest3⟩
    · rw [hdw] at h
      exact absurd h (by simp)
    · rw [hdw] at h
      dsimp only at h
      by_cases hg : g = '>'
      · rw [if_pos hg] at h
        have hpair := Option.some.inj h
        have ht := congrArg Prod.fst hpair
        have hr := congrArg Prod.snd hpair
        dsimp only at ht hr
        subst ht hr
        have hsplit : (d :: rest2).takeWhile (fun x => x ≠ '>')
            ++ (g :: rest3) = d :: rest2 := by
          rw [← hdw]
          exact List.takeWhile_append_dropWhile _ _
        constructor
        · subst hg
          simp only [List.cons_append, List.append_assoc, List.singleton_append,
            List.nil_append]
          rw [hsplit]
        · have hlen : ((d :: rest2).takeWhile (fun x => x ≠ '>')).length
              + (g :: rest3).length = (d :: rest2).length := by
            rw [← List.length_append, hsplit]
          simp only [List.length_cons] at hlen ⊢
          omega
      · rw [if_neg hg] at h
        exact absurd h (by simp)
  · rw [if_neg hcond] at h
    exact absurd h (by simp)

/-- C8 helper: the scan partitions the document exactly — concatenating the
segments gives back the input, whatever the fuel. -/
theorem scanImgFuel_join (fuel : Nat) :
    ∀ l : List Char, (scanImgFuel fuel l).flatMap segChars = l := by
  induction fuel with
  | zero =>
    intro l
    cases l with
    | nil => rfl
    | cons x xs => simp [scanImgFuel, segChars]
  | succ n ih =>
    intro l
    cases l with
    | nil => rfl
    | cons x xs =>
      simp only [scanImgFuel]
      cases hm : matchImgAt (x :: xs) with
      | none => simp [segChars, ih xs]
      | some tr =>
        obtain ⟨t, r⟩ := tr
        simp only [List.flatMap_cons, segChars, ih r]
        exact (matchImgAt_spec _ _ _ hm).1

/-- C8 helper: restatement of the partition property for `scanImg`. -/
theorem scanImg_join (l : List Char) : (scanImg l).flatMap segChars = l :=
  scanImgFuel_join _ _

/-- C8 helper: a tag with no src attribute, an excluded scheme, or an
unreadable referenced file is returned unchanged by the per-tag transform. -/
theorem transformTag_bad (env : InlineEnv) (bd : String) (tag : List Char)
    (h : imgTagBad env bd tag = true) : transformTag env bd tag = tag := by
  unfold imgTagBad at h
  unfold transformTag
  cases hf : findSrcIn true tag with
  | none => rfl
  | some m =>
    rw [hf] at h
    dsimp only
    by_cases hex : excludedSrc (tagSrcSel m) = true
    · rw [if_pos hex]
    · rw [if_neg hex]
      have hnone : (env.readFile (srcResolvedPath env bd (tagSrcSel m))).isNone = true := by
        rcases Bool.or_eq_true_iff.mp h with h1 | h1
        · exact absurd h1 hex
        · exact h1
      rw [Option.isNone_iff_eq_none.mp hnone]

/-- C8: the local-image-inlining transform is a total function that degrades
per tag: every scanned `<img>` tag whose src is missing, a `data:`/`http:`/
`https:`/protocol-relative URL, or names an unreadable file is returned
unchanged; the scan partitions the document exactly (so all non-img text is
preserved verbatim); and when every img tag in the document falls in those
categories the whole transform is the identity. -/
theorem c8_inliner_degrades (env : InlineEnv) (htmlContent htmlFilePath : String)
    (hall : ((scanImg htmlContent.data).all fun s =>
        match s with
        | .img tag => imgTagBad env (env.dir htmlFilePath) tag
        | .text _ => true) = true) :
    inlineLocalImages env htmlContent htmlFilePath = htmlContent
    ∧ (∀ tag, imgTagBad env (env.dir htmlFilePath) tag = true →
        transformTag env (env.dir htmlFilePath) tag = tag)
    ∧ (scanImg htmlContent.data).flatMap segChars = htmlContent.data := by
  refine ⟨?_, fun tag ht => transformTag_bad env _ tag ht, scanImg_join _⟩
  unfold inlineLocalImages
  have hcong : ∀ segs : List Seg,
      (segs.all fun s =>
        match s with
        | .img tag => imgTagBad env (env.dir htmlFilePath) tag
        | .text _ => true) = true →
      (segs.flatMap fun s =>
        match s with
        | .text t => t
        | .img tag => transformTag env (env.dir htmlFilePath) tag)
        = segs.flatMap segChars := by
    intro segs
    induction segs with
    | nil => intro _; rfl
    | cons s rest ih =>
      intro hall2
      rw [List.all_cons, Bool.and_eq_true_iff] at hall2
      rw [List.flatMap_cons, List.flatMap_cons, ih hall2.2]
      cases s with
      | text t => rfl
      | img tag =>
        dsimp only [segChars]
        rw [transformTag_bad env _ tag hall2.1]
  dsimp only
  rw [hcong _ hall, scanImg_join]

/-- C8 witness: a document whose two img tags reference an unreadable file
and a `data:` URI is returned verbatim by the inliner. -/
theorem c8_inliner_degrades_witness :
    (((scanImg "a<img src='x.png'>b<img src=\"data:image/png;base64,AA\">c".data).all
        fun s =>
          match s with
          | .img tag => imgTagBad noFsInlineEnv (noFsInlineEnv.dir "C:\\d\\f.html") tag
          | .text _ => true) = true)
    ∧ inlineLocalImages noFsInlineEnv
        "a<img src='x.png'>b<img src=\"data:image/png;base64,AA\">c" "C:\\d\\f.html"
      = "a<img src='x.png'>b<img src=\"data:image/png;base64,AA\">c" :=
  ⟨by decide,
   (c8_inliner_degrades noFsInlineEnv
     "a<img src='x.png'>b<img src=\"data:image/png;base64,AA\">c" "C:\\d\\f.html"
     (by decide)).1⟩

/-- C6 witness: a secondary launch with file argument `C:\notes\todo.md`
(existing, non-directory, readable as `hi`) performs exactly the handover
POST with the encoded content and a 2-second timeout. -/
theorem c6_secondary_role_witness :
    (handoverOsEnv.argv.get? 1 = some "C:\\notes\\todo.md"
      ∧ handoverOsEnv.statIsDir (handoverOsEnv.absPath "C:\\notes\\todo.md") = some false
      ∧ handoverOsEnv.readFile (handoverOsEnv.absPath "C:\\notes\\todo.md")
          = some (utf8Bytes "hi"))
    ∧ mainActions false handoverOsEnv
      = [.postHandover (targetUrl ++ "/api/cli-handover")
          { fileName := handoverOsEnv.absPath "C:\\notes\\todo.md"
            data := base64Encode (utf8Bytes "hi") } 2] :=
  ⟨⟨by decide, by decide, by decide⟩,
   (c6_secondary_role handoverOsEnv).2.1 "C:\\notes\\todo.md" (utf8Bytes "hi")
     (by decide) (by decide) (by decide)⟩

end WinHtmlEditor
